import Mathlib

/-!
Verification of the sharded key-value store (Raft-based) against its design
specification.  The Go source is shallowly embedded: each Go function that a
claim depends on is translated into an executable Lean definition operating on
an explicit state record; Go maps are modelled as association lists, Go `int`
and `int64` as `Int` (or `Nat` where the source value is an index that is
never negative), and external effects (RPC sends, locking, channels,
persistence) are dropped because they do not change the in-memory state the
claims speak about.
-/

namespace KVStore

/-! ### Association-list operations modelling Go maps

Go maps keep at most one binding per key.  `alInsert` models `m[k] = v`
(update in place, else add), `alLookup` models `v, ok := m[k]`, `alErase`
models `delete(m, k)`. -/

def alLookup {α β : Type} [DecidableEq α] (k : α) : List (α × β) → Option β
  | [] => none
  | (k', v) :: rest => if k' = k then some v else alLookup k rest

def alInsert {α β : Type} [DecidableEq α] (k : α) (v : β) : List (α × β) → List (α × β)
  | [] => [(k, v)]
  | (k', v') :: rest => if k' = k then (k, v) :: rest else (k', v') :: alInsert k v rest

def alErase {α β : Type} [DecidableEq α] (k : α) : List (α × β) → List (α × β)
  | [] => []
  | (k', v') :: rest => if k' = k then alErase k rest else (k', v') :: alErase k rest

/-! ### Shard model -/

/-- Modelled from the spec: `NSHARDS` is a fixed constant shared with the
shard master (`shardmaster.NShards`; the shardmaster package is not part of
the provided sources).  The canonical value used by this code base is 10. -/
def NShards : Nat := 10

/-- Modelled from the spec: a key deterministically maps to a shard via a
stable hash in `[0, NSHARDS)` (`key2shard` lives in the shardkv client/common
file, which is not among the provided sources).  The canonical definition is
the key's first byte modulo `NShards`, 0 for the empty key. -/
def key2shard (key : String) : Nat :=
  (match key.data with
   | [] => 0
   | c :: _ => c.toNat) % NShards

/-- Go source: `type ShardStatus int` with the four constants. -/
inductive ShardStatus where
  | AVAILABLE
  | EXPORTING
  | IMPORTING
  | NOTOWNED
deriving DecidableEq

export ShardStatus (AVAILABLE EXPORTING IMPORTING NOTOWNED)

/-- Modelled from the spec: `shardmaster.Config` (versioned snapshot
`{num, shards[NSHARDS] -> group_id, groups}`); the shardmaster package is not
among the provided sources.  `Groups` is carried only because
`applyConfigOperation` reads it to find destination servers. -/
structure Config where
  Num : Nat
  Shards : List Nat
  Groups : List (Nat × List String)
deriving DecidableEq

/-- Go source `shardkv/server.go`: `type Op struct`.  `ClientId`/`SerialNum`
are `int64`, modelled as `Int`. -/
structure Op where
  Method : String := ""
  Key : String := ""
  Value : String := ""
  ClientId : Int := 0
  SerialNum : Int := 0
  Kvmap : List (String × String) := []
  LatestRequests : List (Int × Int) := []
  ShardNumber : Nat := 0
  BroadcastCfgVersion : Nat := 0
deriving DecidableEq

/-- The replicated state of one `ShardKV` replica: the fields of
`type ShardKV struct` that the applied commands read and write
(`Kvmap`, `latestRequests`, `ShardStatusList`, `LatestCfg`).  `gid` is the
replica group's id.  Mutexes, channels, raft handles and snapshot bookkeeping
are omitted: they do not enter the state transitions the claims are about. -/
structure ShardKVState where
  gid : Nat
  Kvmap : List (String × String)
  latestRequests : List (Nat × List (Int × Int))
  ShardStatusList : List ShardStatus
  LatestCfg : Config
deriving DecidableEq

/-- Array read `kv.ShardStatusList[n]`.  The Go array has fixed length
`NShards`; the default is never reached for in-range shard numbers. -/
def statusAt (st : ShardKVState) (n : Nat) : ShardStatus :=
  st.ShardStatusList.getD n NOTOWNED

/-- Go source: `func (kv *ShardKV) isRequestDuplicate`. -/
def isRequestDuplicate (st : ShardKVState) (shard : Nat) (clientId requestId : Int) : Bool :=
  match alLookup shard st.latestRequests with
  | some shardRequests =>
    match alLookup clientId shardRequests with
    | some lastRequest => lastRequest = requestId
    | none => false
  | none => false

/-- Go source: `func (kv *ShardKV) applyClientOp`.  `kv.Kvmap[cmd.Key] +=
cmd.Value` on a missing key starts from the empty string, as in Go.  The
write `kv.latestRequests[shard][client] = serial` assumes the inner map for
the shard exists (StartServer creates one per shard); a missing inner map is
modelled as the empty table. -/
def applyClientOp (cmd : Op) (st : ShardKVState) : ShardKVState :=
  if ¬ (isRequestDuplicate st (key2shard cmd.Key) cmd.ClientId cmd.SerialNum) ∧ cmd.Method ≠ "Get" then
    let kvmap' :=
      if cmd.Method = "Put" then alInsert cmd.Key cmd.Value st.Kvmap
      else if cmd.Method = "Append" then
        alInsert cmd.Key ((alLookup cmd.Key st.Kvmap).getD "" ++ cmd.Value) st.Kvmap
      else st.Kvmap
    let inner := (alLookup (key2shard cmd.Key) st.latestRequests).getD []
    { st with
      Kvmap := kvmap'
      latestRequests :=
        alInsert (key2shard cmd.Key) (alInsert cmd.ClientId cmd.SerialNum inner) st.latestRequests }
  else st

/-- Go source `applyConfigOperation`: the inner query loop
`for lastConfig.Num > 1 && lastConfig.Shards[shard] == kv.gid {
lastConfig = kv.mck.Query(lastConfig.Num - 1) }`.  The shard master `Query`
is an external oracle, passed in as `query`.  The Go loop terminates because
`Query n` returns the configuration numbered `n`; the recursion is made total
with a fuel argument set to `cfg.Num` at the call site, which is enough fuel
whenever `(query n).Num = n`. -/
def lastConfigLoop (query : Nat → Config) (gid shardIndex : Nat) :
    Nat → Config → Config
  | 0, cfg => cfg
  | fuel + 1, cfg =>
    if cfg.Num > 1 ∧ cfg.Shards.getD shardIndex 0 = gid then
      lastConfigLoop query gid shardIndex fuel (query (cfg.Num - 1))
    else cfg

/-- Go source `applyConfigOperation`: the body of the per-shard loop
`for shardIndex, newGid := range newShardsToGroupMap` (the `cfg.Num > 1`
case).  The leader's `sendMigrateShard` RPC send inside the EXPORTING branch
is an external effect and does not change the fields modelled here. -/
def updateShardStatus (query : Nat → Config) (gid : Nat) (cfg : Config)
    (cachedPrev : List Nat) (statuses : List ShardStatus)
    (shardIndex newGid : Nat) : List ShardStatus :=
  let cachedGid := cachedPrev.getD shardIndex 0
  let shardStatus := statuses.getD shardIndex NOTOWNED
  if cachedGid = gid ∧ newGid ≠ gid then
    -- if we owned, but lose, change to Exporting state
    if shardStatus = AVAILABLE then statuses.set shardIndex EXPORTING
    else statuses.set shardIndex NOTOWNED -- hack
  else if cachedGid ≠ gid ∧ newGid = gid then
    -- if we gain new one, previous not owned, change to Importing state
    if shardStatus = NOTOWNED then
      let base := if cachedGid ≠ 0 then IMPORTING else AVAILABLE
      -- Query previous configurations until we find either there was a
      -- previous owner, or that we're the first owner
      let lastConfig := lastConfigLoop query gid shardIndex cfg.Num cfg
      if lastConfig.Num = 1 ∧ lastConfig.Shards.getD shardIndex 0 = gid then
        statuses.set shardIndex AVAILABLE
      else statuses.set shardIndex base
    else if newGid ≠ gid ∧ shardStatus = IMPORTING then
      -- (unreachable in this branch: requires newGid = gid and newGid ≠ gid)
      statuses.set shardIndex NOTOWNED
    else statuses
  else statuses

/-- Go source: `kv.ShardStatusList.any(EXPORTING or IMPORTING)` loop at the
top of `applyConfigOperation`. -/
def shardTransferInProgress (st : ShardKVState) : Bool :=
  st.ShardStatusList.any (fun s => s = EXPORTING ∨ s = IMPORTING)

/-- Go source: `func (kv *ShardKV) applyConfigOperation(num int)`.  The shard
master clerk `kv.mck.Query` is the oracle `query`.  Only the leader
(`kv.rf.IsLeader()`) additionally fires the migration RPC inside the
EXPORTING branch, an external effect that changes none of the fields
modelled here, so the transition function does not depend on leadership. -/
def applyConfigOperation (query : Nat → Config) (num : Nat)
    (st : ShardKVState) : ShardKVState :=
  if st.LatestCfg.Num + 1 ≠ num ∨ shardTransferInProgress st then st
  else
    let cfg := query num
    let statuses :=
      if cfg.Num > 1 then
        let cachedPrev := st.LatestCfg.Shards
        cfg.Shards.enum.foldl
          (fun sts p => updateShardStatus query st.gid cfg cachedPrev sts p.1 p.2)
          st.ShardStatusList
      else if cfg.Num = 1 then
        -- very first valid config created in response to 1st Join RPC
        cfg.Shards.enum.foldl
          (fun sts p =>
            sts.set p.1 (if p.2 = st.gid then AVAILABLE else NOTOWNED))
          st.ShardStatusList
      else st.ShardStatusList
    { st with ShardStatusList := statuses, LatestCfg := cfg }

/-- Go source `periodCheckApplyMsg`, `ExportComplete` case: keys to delete are
taken from the command's own `Kvmap`, filtered by shard. -/
def deleteShardKeys (shard : Nat) (cmdKvmap kvmap : List (String × String)) :
    List (String × String) :=
  cmdKvmap.foldl (fun m p => if shard = key2shard p.1 then alErase p.1 m else m) kvmap

/-- Go source `periodCheckApplyMsg`, `ImportComplete` case: insert the
command's keys of the shard. -/
def insertShardKeys (shard : Nat) (cmdKvmap kvmap : List (String × String)) :
    List (String × String) :=
  cmdKvmap.foldl (fun m p => if shard = key2shard p.1 then alInsert p.1 p.2 m else m) kvmap

/-- Go source: the `switch cmd.Method` dispatch of `periodCheckApplyMsg` for
one committed command (one `ApplyMsg` with `CommandValid`).  Snapshot
requests, the waiter hand-off and `snapshotIfNeeded` are omitted: they do not
change the replicated KV fields. -/
def applyCommand (query : Nat → Config) (cmd : Op) (st : ShardKVState) :
    ShardKVState :=
  if cmd.Method = "Put" then applyClientOp cmd st
  else if cmd.Method = "Append" then applyClientOp cmd st
  else if cmd.Method = "ExportComplete" then
    -- remove kvmap, change ownership
    if statusAt st cmd.ShardNumber = EXPORTING then
      { st with
        Kvmap := deleteShardKeys cmd.ShardNumber cmd.Kvmap st.Kvmap
        ShardStatusList := st.ShardStatusList.set cmd.ShardNumber NOTOWNED }
    else st
  else if cmd.Method = "ImportComplete" then
    if statusAt st cmd.ShardNumber = IMPORTING then
      let inner := (alLookup cmd.ShardNumber st.latestRequests).getD []
      { st with
        Kvmap := insertShardKeys cmd.ShardNumber cmd.Kvmap st.Kvmap
        latestRequests :=
          alInsert cmd.ShardNumber
            (cmd.LatestRequests.foldl (fun m p => alInsert p.1 p.2 m) inner)
            st.latestRequests
        ShardStatusList := st.ShardStatusList.set cmd.ShardNumber AVAILABLE }
    else
      -- hack branch: merge keys and force AVAILABLE anyway
      { st with
        Kvmap := insertShardKeys cmd.ShardNumber cmd.Kvmap st.Kvmap
        ShardStatusList := st.ShardStatusList.set cmd.ShardNumber AVAILABLE }
  else if cmd.Method = "ApplyConfig" then
    applyConfigOperation query cmd.BroadcastCfgVersion st
  else st

/-! ### Shard migration RPC -/

/-- Modelled from the spec: the `OK` error tag (`shardkv/common.go` is not
among the provided sources; its sibling `kvraft/common.go` defines
`OK = "OK"`). -/
def OK : String := "OK"

/-- Go source: `type MigrateShardArgs` (fields read in `MigrateShard` and
built in `sendMigrateShard`). -/
structure MigrateShardArgs where
  ConfigVersion : Nat
  ShardNumber : Nat
  Kvmap : List (String × String)
  Duplicate : List (Int × Int)
deriving DecidableEq

/-- Go source: `type MigrateShardReply`.  A fresh Go reply struct is
zero-valued: `WrongLeader = false`, `Err = ""`. -/
structure MigrateShardReply where
  WrongLeader : Bool := false
  Err : String := ""
deriving DecidableEq

/-- Go source: `func (kv *ShardKV) MigrateShard`: the reply computed by the
handler.  `isLeader` stands for `kv.rf.IsLeader()`.  The data copy and the
`broadcastMigrationStatus("ImportComplete", ...)` raft submission are
external effects; the reply is all the claim is about.  Note that the
`AVAILABLE` duplicate path returns with the zero-valued reply. -/
def migrateShardHandler (isLeader : Bool) (st : ShardKVState)
    (args : MigrateShardArgs) : MigrateShardReply :=
  if ¬ isLeader then { WrongLeader := true }
  else if statusAt st args.ShardNumber = AVAILABLE then
    {} -- duplicate request: early return, neither field assigned
  else { Err := OK }

/-- Go source: `func (kv *ShardKV) sendMigrateShard`: the request payload it
builds before the retry loop.  `for k, v := range kv.Kvmap` copies the whole
local map; `range kv.latestRequests[shard]` copies the shard's duplicate
table (empty when absent, as ranging over a nil map). -/
def sendMigrateShardPayload (st : ShardKVState) (shard cfgNum : Nat) :
    MigrateShardArgs :=
  { ConfigVersion := cfgNum
    ShardNumber := shard
    Kvmap := st.Kvmap.foldl (fun m p => alInsert p.1 p.2 m) []
    Duplicate :=
      ((alLookup shard st.latestRequests).getD []).foldl
        (fun m p => alInsert p.1 p.2 m) [] }

/-! ### Raft core

Embedding of `raft/raft.go`.  Go `int` fields become `Int` (`votedFor` uses
`-1` for "unset", `Start` returns `-1, -1` on a non-leader).  Commands are
opaque to Raft (`Cmd interface{}`), modelled as `Nat` identifiers.  Wall
clock reads (`time.Now()`) are modelled by a `now : Nat` tick passed to the
handlers; `rf.lastHeartBeat = time.Now()` becomes `lastHeartBeat := now`. -/

/-- Go source: `type ServerState string` with the three roles. -/
inductive ServerState where
  | Follower
  | Candidate
  | Leader
deriving DecidableEq

export ServerState (Follower Candidate Leader)

/-- Go source: `type Log struct { Cmd interface{}; Term int; Index int }`. -/
structure Log where
  Cmd : Nat
  Term : Int
  Index : Int
deriving DecidableEq

/-- Go source: `type Raft struct` — the fields the verified handlers read and
write.  `npeers` is `len(rf.peers)` and `me` is `rf.me`; the peer RPC stubs,
mutex, channels and persister are external and omitted. -/
structure RaftState where
  leaderID : Int
  term : Int
  votedFor : Int
  lastHeartBeat : Nat
  state : ServerState
  commitIndex : Int
  lastApplied : Int
  log : List Log
  nextIndex : List Int
  matchIndex : List Int
  isDecommissioned : Bool
  lastSnapshotIndex : Int
  lastSnapshotTerm : Int
  npeers : Nat
  me : Nat
deriving DecidableEq

/-- Go source: `func (rf *Raft) getLastLogEntry() (int, int)`. -/
def getLastLogEntry (rf : RaftState) : Int × Int :=
  match rf.log.getLast? with
  | some entry => (entry.Index, entry.Term)
  | none => (rf.lastSnapshotIndex, rf.lastSnapshotTerm)

/-- Go source: `func (rf *Raft) getLastLogIndex() int`. -/
def getLastLogIndex (rf : RaftState) : Int :=
  match rf.log.getLast? with
  | some entry => entry.Index
  | none => rf.lastSnapshotIndex

/-- Go source: `func (rf *Raft) checkIfLogUpdateToDate`. -/
def checkIfLogUpdateToDate (rf : RaftState) (lastLogIndex lastLogTerm : Int) : Bool :=
  let lastI := (getLastLogEntry rf).1
  let lastT := (getLastLogEntry rf).2
  if lastT = lastLogTerm then lastI ≤ lastLogIndex else lastT < lastLogTerm

/-- Go source: `type RequestVoteArgs`. -/
structure RequestVoteArgs where
  Term : Int
  CandidateId : Int
  LastLogIndex : Int
  LastLogTerm : Int
deriving DecidableEq

/-- Go source: `type RequestVoteReply` (zero-valued on entry). -/
structure RequestVoteReply where
  Term : Int := 0
  VoteGranted : Bool := false
deriving DecidableEq

/-- Go source: `func (rf *Raft) RequestVote`.  Mirrors the handler statement
by statement: `reply.Term` is assigned the term held on entry, the
up-to-date check reads only the log, a strictly greater `args.Term` first
runs `turnToFollow()` (Follower, `votedFor = -1`) and adopts the term, and a
granted vote records the candidate and refreshes `lastHeartBeat`. -/
def requestVoteStep (rf : RaftState) (args : RequestVoteArgs) (now : Nat) :
    RaftState × RequestVoteReply :=
  let replyTerm := rf.term
  let updateToDate := checkIfLogUpdateToDate rf args.LastLogIndex args.LastLogTerm
  let rf1 :=
    if args.Term > rf.term then
      { rf with state := Follower, votedFor := -1, term := args.Term }
    else rf
  if args.Term < rf1.term then
    (rf1, { Term := replyTerm, VoteGranted := false })
  else if (rf1.votedFor = -1 ∨ args.CandidateId = rf1.votedFor) ∧ updateToDate then
    ({ rf1 with votedFor := args.CandidateId, lastHeartBeat := now },
     { Term := replyTerm, VoteGranted := true })
  else
    (rf1, { Term := replyTerm, VoteGranted := false })

/-- Go source: `func (rf *Raft) Start(command interface{}) (int, int, bool)`. -/
def startStep (rf : RaftState) (command : Nat) : RaftState × (Int × Int × Bool) :=
  if rf.state ≠ Leader then (rf, (-1, -1, false))
  else
    let nextIdx : Int :=
      match rf.log.getLast? with
      | some entry => entry.Index + 1
      | none => max 1 (rf.lastSnapshotIndex + 1)
    let entry : Log := { Cmd := command, Term := rf.term, Index := nextIdx }
    ({ rf with log := rf.log ++ [entry] }, (entry.Index, rf.term, true))

/-- Go source `updateCommitIndex`: the inner `for serverIndex, j := range
rf.matchIndex` count, starting at 1 for the leader itself and skipping
`rf.me`. -/
def majorityCount (rf : RaftState) (idx : Int) : Nat :=
  1 + (rf.matchIndex.enum.filter (fun p => p.1 ≠ rf.me ∧ idx ≤ p.2)).length

/-- Go source `updateCommitIndex`: the `count` computed for one entry `v`;
replica counting happens only under `v.Term == rf.term && v.Index >
rf.commitIndex`, otherwise `count` stays 1. -/
def commitCount (rf : RaftState) (v : Log) : Nat :=
  if v.Term = rf.term ∧ v.Index > rf.commitIndex then majorityCount rf v.Index else 1

/-- Go source `updateCommitIndex`: the scan `for i > 0 { v := rf.log[i-1]
... i-- }` walks the log from the last entry backwards and stops at the
first entry whose count clears `len(rf.peers)/2`.  The argument is the
reversed log. -/
def commitScan (rf : RaftState) : List Log → Option Int
  | [] => none
  | v :: rest =>
    if commitCount rf v > rf.npeers / 2 then some v.Index else commitScan rf rest

/-- Go source: `func (rf *Raft) updateCommitIndex()` (the apply-channel
notification is an external effect). -/
def updateCommitIndexStep (rf : RaftState) : RaftState :=
  match commitScan rf rf.log.reverse with
  | some n => { rf with commitIndex := n }
  | none => rf

/-- Go source: `type AppendEntriesArgs`. -/
structure AppendEntriesArgs where
  Term : Int
  LeaderId : Int
  PreLogIndex : Int
  PreLogTerm : Int
  Entries : List Log
  LeaderCommit : Int
deriving DecidableEq

/-- Go source: `type AppendEntriesReply` (zero-valued on entry). -/
structure AppendEntriesReply where
  Term : Int := 0
  Success : Bool := false
  ConflictingLogTerm : Int := 0
  ConflictingLogIndex : Int := 0
deriving DecidableEq

/-- Go source `AppendEntries`: the scan `for i, v := range rf.log` locating
`args.PreLogIndex`.  Returns the position where index and term both match
(`break`), carrying along the last conflicting term assigned to
`reply.ConflictingLogTerm` on an index match with a term mismatch. -/
def findPrePos (preIdx preTerm : Int) (i : Nat) (confl : Int) :
    List Log → Option Nat × Int
  | [] => (none, confl)
  | v :: rest =>
    if v.Index = preIdx then
      if v.Term = preTerm then (some i, confl)
      else findPrePos preIdx preTerm (i + 1) v.Term rest
    else findPrePos preIdx preTerm (i + 1) confl rest

/-- Go source `AppendEntries`: the overwrite loop compares the local log from
position `pos+1` with the incoming entries by `(index, term)`; this is the
length of the agreeing prefix, after which the local log is truncated and the
remaining incoming entries appended. -/
def consistentLen : List Log → List Log → Nat
  | l :: ls, e :: es =>
    if l.Term = e.Term ∧ l.Index = e.Index then 1 + consistentLen ls es else 0
  | _, _ => 0

/-- Go source: `func (rf *Raft) AppendEntries`.  Faithful to the handler:
`reply.Term` is the term on entry; any `args.Term >= rf.term` steps down,
adopts the term, records the leader and — the source's own fix against
re-voting — sets `votedFor` to the leader; a `PreLogIndex` below the
snapshot replies `ConflictingLogIndex = lastSnapshotIndex + 1`; the match
succeeds on a located position, a zero `prev`, or a `prev` equal to the
snapshot point; on success the log is overwritten from the first divergence
and `commitIndex` raised to `min(LeaderCommit, last index)`; on mismatch the
conflict term/index pair is computed from the local log. -/
def appendEntriesStep (rf : RaftState) (args : AppendEntriesArgs) (now : Nat) :
    RaftState × AppendEntriesReply :=
  let replyTerm := rf.term
  if args.Term < rf.term then
    (rf, { Term := replyTerm, Success := false })
  else
    let rf1 := { rf with
      state := Follower, term := args.Term,
      leaderID := args.LeaderId, votedFor := args.LeaderId,
      lastHeartBeat := now }
    if args.PreLogIndex < rf1.lastSnapshotIndex then
      (rf1, { Term := replyTerm, Success := false,
              ConflictingLogIndex := rf1.lastSnapshotIndex + 1 })
    else
      let found := findPrePos args.PreLogIndex args.PreLogTerm 0 0 rf1.log
      let prevIsBeginningOfLog := args.PreLogIndex = 0 ∧ args.PreLogTerm = 0
      let prevMatchedSnapshot :=
        args.PreLogIndex = rf1.lastSnapshotIndex ∧ args.PreLogTerm = rf1.lastSnapshotTerm
      if found.1.isSome ∨ prevIsBeginningOfLog ∨ prevMatchedSnapshot then
        let start := match found.1 with | some i => i + 1 | none => 0
        let k := consistentLen (rf1.log.drop start) args.Entries
        let newLog := rf1.log.take (start + k) ++ args.Entries.drop k
        let newCommit :=
          if args.LeaderCommit > rf1.commitIndex then
            let latestLogIndex :=
              match newLog.getLast? with
              | some entry => entry.Index
              | none => rf1.lastSnapshotIndex
            if args.LeaderCommit < latestLogIndex then args.LeaderCommit
            else latestLogIndex
          else rf1.commitIndex
        ({ rf1 with log := newLog, commitIndex := newCommit },
         { Term := replyTerm, Success := true, ConflictingLogTerm := found.2 })
      else
        let conflTerm :=
          if found.2 = 0 then ((rf1.log.getLast?).map Log.Term).getD found.2
          else found.2
        let conflIdx :=
          (((rf1.log.find? (fun v => v.Term == conflTerm)).map Log.Index)).getD 0
        (rf1, { Term := replyTerm, Success := false,
                ConflictingLogTerm := conflTerm, ConflictingLogIndex := conflIdx })

/-- Go source: `type InstallSnapshotArgs` (the snapshot byte blob is opaque
and omitted). -/
structure InstallSnapshotArgs where
  Term : Int
  LeaderId : Int
  LastIncludedIndex : Int
  LastIncludedTerm : Int
deriving DecidableEq

/-- Go source: `type InstallSnapshotReply` (zero-valued on entry). -/
structure InstallSnapshotReply where
  Term : Int := 0
deriving DecidableEq

/-- Go source: `func (rf *Raft) InstallSnapshot`.  A decommissioned replica
returns the zero-valued reply untouched; otherwise any `args.Term >= rf.term`
adopts the term, steps down and sets `votedFor` to the leader; a newer
snapshot point truncates the log at `getOffsetIndex(LastIncludedIndex)`
(computed against the old snapshot index), bumps `commitIndex` to at least
the snapshot point and, when that raised it, clears `lastApplied` so the
apply pipeline redelivers the snapshot. -/
def installSnapshotStep (rf : RaftState) (args : InstallSnapshotArgs) (now : Nat) :
    RaftState × InstallSnapshotReply :=
  if rf.isDecommissioned then (rf, {})
  else
    let replyTerm := rf.term
    if args.Term < rf.term then (rf, { Term := replyTerm })
    else
      let rf1 := { rf with
        term := args.Term, state := Follower,
        leaderID := args.LeaderId, votedFor := args.LeaderId,
        lastHeartBeat := now }
      if args.LastIncludedIndex > rf1.lastSnapshotIndex then
        let truncationStartIndex := args.LastIncludedIndex - rf1.lastSnapshotIndex
        let oldCommitIndex := rf1.commitIndex
        let newCommit := max rf1.commitIndex args.LastIncludedIndex
        let newLog :=
          if truncationStartIndex < (rf1.log.length : Int) then
            rf1.log.drop truncationStartIndex.toNat
          else []
        let rf2 := { rf1 with
          lastSnapshotIndex := args.LastIncludedIndex
          lastSnapshotTerm := args.LastIncludedTerm
          commitIndex := newCommit
          log := newLog }
        let rf3 :=
          if rf2.commitIndex > oldCommitIndex then { rf2 with lastApplied := 0 }
          else rf2
        (rf3, { Term := replyTerm })
      else (rf1, { Term := replyTerm })

/-! ### Concrete fixtures

Small executable states used by counterexamples and witnesses. -/

/-- Go source `StartServer` creates one (empty) duplicate table per shard. -/
def initialDuplicateTable : List (Nat × List (Int × Int)) :=
  (List.range NShards).map (fun i => (i, []))

/-- A first configuration assigning every shard to group 1. -/
def baseCfg : Config :=
  { Num := 1, Shards := List.replicate NShards 1, Groups := [] }

/-- A replica of group 1 owning every shard, fresh from `StartServer` after
absorbing configuration 1. -/
def baseShardKV : ShardKVState :=
  { gid := 1, Kvmap := [], latestRequests := initialDuplicateTable,
    ShardStatusList := List.replicate NShards AVAILABLE, LatestCfg := baseCfg }

/-- A shard-master oracle that is never consulted by the scenarios using it. -/
def noQuery : Nat → Config := fun _ => { Num := 0, Shards := [], Groups := [] }

def putA1 : Op :=
  { Method := "Put", Key := "a", Value := "1", ClientId := 7, SerialNum := 1 }

def putA2 : Op :=
  { Method := "Put", Key := "a", Value := "2", ClientId := 7, SerialNum := 2 }

/-- The state after client 7 applied `Put("a","1")` with serial 1 and then
`Put("a","2")` with serial 2. -/
def historyState : ShardKVState :=
  applyCommand noQuery putA2 (applyCommand noQuery putA1 baseShardKV)

/-- Claim C1, counterexample.  `Put("a","1",client=7,serial=1)` was applied
(first step of `historyState`), and serial 2 was applied after it.
Delivering the serial-1 command again through the apply path changes both the
KV map (the value of `"a"` reverts to `"1"`) and the duplicate table (the
recorded serial for client 7 drops back to 1): the duplicate check
`isRequestDuplicate` compares against only the most recent serial, so an
older serial is re-applied. -/
theorem put_replay_old_serial_changes_state :
    (applyCommand noQuery putA1 historyState).Kvmap ≠ historyState.Kvmap ∧
    (applyCommand noQuery putA1 historyState).latestRequests ≠ historyState.latestRequests := by
  decide

/-- Claim C1, amended: redelivering a `Put` whose `(client, serial)` pair
equals the serial currently recorded in `duplicate[shard][client]` (the most
recent one) leaves the replica state unchanged; older serials are not
suppressed. -/
theorem put_replay_latest_serial_noop (query : Nat → Config) (cmd : Op)
    (st : ShardKVState) (hput : cmd.Method = "Put")
    (hdup : isRequestDuplicate st (key2shard cmd.Key) cmd.ClientId cmd.SerialNum = true) :
    applyCommand query cmd st = st := by
  simp [applyCommand, hput, applyClientOp, hdup]

/-- Witness for the amended C1 theorem: replaying the most recent serial
(`putA2`, serial 2) on `historyState` is a no-op. -/
theorem put_replay_latest_serial_noop_witness :
    putA2.Method = "Put" ∧
    isRequestDuplicate historyState (key2shard putA2.Key) putA2.ClientId putA2.SerialNum = true ∧
    applyCommand noQuery putA2 historyState = historyState :=
  ⟨rfl, by decide, put_replay_latest_serial_noop noQuery putA2 historyState rfl (by decide)⟩

/-- State owning nothing but shard 7 (status EXPORTING), with the shard-7 key
`"a"` present in its KV map. -/
def exportingState : ShardKVState :=
  { historyState with
    ShardStatusList := (List.replicate NShards AVAILABLE).set 7 EXPORTING }

/-- An `ExportComplete` for shard 7 whose own `Kvmap` payload is empty. -/
def exportCmdEmpty : Op := { Method := "ExportComplete", ShardNumber := 7 }

/-- Claim C2.  The `ExportComplete` case of `periodCheckApplyMsg` deletes only
the keys listed in the command's own `Kvmap`, not all local keys of the
shard: applying an `ExportComplete` for shard 7 whose payload omits the local
shard-7 key `"a"` leaves `"a"` in the KV map while setting
`status[7] = NOTOWNED` — a key of shard 7 now exists although
`status[key2shard "a"] ∉ {AVAILABLE, EXPORTING}`, and the key was not
removed. -/
theorem exportComplete_leaves_unlisted_shard_key :
    key2shard "a" = 7 ∧
    alLookup "a" exportingState.Kvmap = some "2" ∧
    statusAt exportingState 7 = EXPORTING ∧
    alLookup "a" (applyCommand noQuery exportCmdEmpty exportingState).Kvmap = some "2" ∧
    statusAt (applyCommand noQuery exportCmdEmpty exportingState) 7 = NOTOWNED := by
  decide

def migrateArgsShard3 : MigrateShardArgs :=
  { ConfigVersion := 2, ShardNumber := 3, Kvmap := [], Duplicate := [] }

/-- Claim C3.  A non-leader replies `WrongLeader = true` as claimed, but on
the leader the duplicate path (`status[shard] = AVAILABLE`) returns the
zero-valued reply: `Err` is the empty string, not `OK`, so a retrying sender
(which requires `Err == OK`) never observes success on the duplicate. -/
theorem migrateShard_duplicate_reply_lacks_ok :
    migrateShardHandler false baseShardKV migrateArgsShard3 =
      { WrongLeader := true, Err := "" } ∧
    statusAt baseShardKV 3 = AVAILABLE ∧
    migrateShardHandler true baseShardKV migrateArgsShard3 =
      { WrongLeader := false, Err := "" } ∧
    "" ≠ OK := by
  decide

/-- A replica holding the shard-7 key `"a"` and the shard-8 key `"b"`, with a
duplicate record for shard 7. -/
def mixedState : ShardKVState :=
  { baseShardKV with
    Kvmap := [("a", "1"), ("b", "2")],
    latestRequests := alInsert 7 [(7, 2)] initialDuplicateTable }

/-- Claim C4, counterexample.  Migrating shard 7 out of `mixedState` ships a
payload whose `Kvmap` contains the key `"b"`, which belongs to shard 8, not
shard 7 — the payload is not restricted to the migrated shard. -/
theorem migrate_payload_contains_foreign_shard_key :
    ("b", "2") ∈ (sendMigrateShardPayload mixedState 7 2).Kvmap ∧
    key2shard "b" ≠ 7 := by
  decide

/-- Inserting an absent key with `alInsert` appends the binding. -/
theorem alInsert_of_not_mem {α β : Type} [DecidableEq α] (k : α) (v : β)
    (l : List (α × β)) (h : k ∉ l.map Prod.fst) : alInsert k v l = l ++ [(k, v)] := by
  induction l with
  | nil => rfl
  | cons p rest ih =>
    obtain ⟨k', v'⟩ := p
    simp only [List.map_cons, List.mem_cons] at h
    push_neg at h
    have hne : ¬ k' = k := fun he => h.1 he.symm
    simp [alInsert, hne, ih h.2]

/-- Folding `alInsert` over bindings with pairwise-distinct keys appends them
in order. -/
theorem foldl_alInsert_append {α β : Type} [DecidableEq α]
    (l : List (α × β)) : ∀ acc : List (α × β),
    ((acc ++ l).map Prod.fst).Nodup →
    l.foldl (fun m p => alInsert p.1 p.2 m) acc = acc ++ l := by
  induction l with
  | nil => intro acc _; simp
  | cons p rest ih =>
    intro acc h
    have hmem : p.1 ∉ acc.map Prod.fst := by
      intro hc
      rw [List.map_append] at h
      exact (List.disjoint_of_nodup_append h) hc (by simp)
    have hstep : alInsert p.1 p.2 acc = acc ++ [p] := alInsert_of_not_mem p.1 p.2 acc hmem
    have hrearr : (acc ++ [p]) ++ rest = acc ++ p :: rest := by simp
    calc (p :: rest).foldl (fun m q => alInsert q.1 q.2 m) acc
        = rest.foldl (fun m q => alInsert q.1 q.2 m) (acc ++ [p]) := by
          simp [List.foldl_cons, hstep]
      _ = (acc ++ [p]) ++ rest := ih (acc ++ [p]) (by rw [hrearr]; exact h)
      _ = acc ++ p :: rest := hrearr

/-- Claim C4, amended: the payload the migration sender ships carries
`config_version = n`, `shard = s`, `duplicate_subset` exactly
`duplicate[s]`, and as `kv_subset` a copy of the ENTIRE local KV map — a
superset containing every local key of shard `s` together with the keys of
every other shard (the receiver filters by shard on arrival). -/
theorem migrate_payload_ships_entire_map (st : ShardKVState) (shard cfgNum : Nat)
    (hkv : (st.Kvmap.map Prod.fst).Nodup)
    (hdup : (((alLookup shard st.latestRequests).getD []).map Prod.fst).Nodup) :
    (sendMigrateShardPayload st shard cfgNum).ConfigVersion = cfgNum ∧
    (sendMigrateShardPayload st shard cfgNum).ShardNumber = shard ∧
    (sendMigrateShardPayload st shard cfgNum).Kvmap = st.Kvmap ∧
    (sendMigrateShardPayload st shard cfgNum).Duplicate =
      (alLookup shard st.latestRequests).getD [] ∧
    ∀ p ∈ st.Kvmap, key2shard p.1 = shard →
      p ∈ (sendMigrateShardPayload st shard cfgNum).Kvmap := by
  have h1 : (sendMigrateShardPayload st shard cfgNum).Kvmap = st.Kvmap := by
    simpa [sendMigrateShardPayload] using
      foldl_alInsert_append st.Kvmap [] (by simpa using hkv)
  have h2 : (sendMigrateShardPayload st shard cfgNum).Duplicate =
      (alLookup shard st.latestRequests).getD [] := by
    simpa [sendMigrateShardPayload] using
      foldl_alInsert_append ((alLookup shard st.latestRequests).getD []) []
        (by simpa using hdup)
  exact ⟨rfl, rfl, h1, h2, fun p hp _ => h1 ▸ hp⟩

/-- Witness for the amended C4 theorem at `mixedState`. -/
theorem migrate_payload_ships_entire_map_witness :
    (mixedState.Kvmap.map Prod.fst).Nodup ∧
    ((((alLookup 7 mixedState.latestRequests).getD []).map Prod.fst).Nodup) ∧
    (sendMigrateShardPayload mixedState 7 2).Kvmap = mixedState.Kvmap ∧
    (sendMigrateShardPayload mixedState 7 2).Duplicate =
      (alLookup 7 mixedState.latestRequests).getD [] :=
  ⟨by decide, by decide,
   (migrate_payload_ships_entire_map mixedState 7 2 (by decide) (by decide)).2.2.1,
   (migrate_payload_ships_entire_map mixedState 7 2 (by decide) (by decide)).2.2.2.1⟩

/-- A replica of group 1 with the shard-0 transfer still in flight
(`status[0] = IMPORTING`), at configuration 1. -/
def importingState : ShardKVState :=
  { gid := 1, Kvmap := [], latestRequests := initialDuplicateTable,
    ShardStatusList := IMPORTING :: List.replicate (NShards - 1) AVAILABLE,
    LatestCfg := baseCfg }

/-- Configuration 2 reassigns shard 0 to group 2 — the in-flight import is
superseded. -/
def supersedingQuery : Nat → Config := fun n =>
  if n = 2 then { Num := 2, Shards := 2 :: List.replicate (NShards - 1) 1, Groups := [] }
  else { Num := 0, Shards := [], Groups := [] }

def applyCfg2 : Op := { Method := "ApplyConfig", BroadcastCfgVersion := 2 }

/-- Claim C8.  With shard 0 in status `IMPORTING` and configuration 2 (the
next in sequence) assigning shard 0 to a different group, applying
`ApplyConfig{2}` leaves the whole state unchanged — `status[0]` stays
`IMPORTING` instead of becoming `NOTOWNED`: the quiescence gate
(`shardTransferInProgress`) discards every `ApplyConfig` while any shard is
`IMPORTING`, so the supersession transition prescribed by the spec is never
taken (the inner branch that would take it additionally requires
`newGid = kv.gid` and `newGid ≠ kv.gid` at once and is unreachable). -/
theorem applyConfig_in_flight_import_not_reverted :
    statusAt importingState 0 = IMPORTING ∧
    importingState.LatestCfg.Num + 1 = 2 ∧
    (supersedingQuery 2).Shards.getD 0 0 ≠ importingState.gid ∧
    applyCommand supersedingQuery applyCfg2 importingState = importingState ∧
    statusAt (applyCommand supersedingQuery applyCfg2 importingState) 0 = IMPORTING := by
  decide

/-- Claim C7.  Applying `ApplyConfig{n}` changes the replica state only when
`n = latest_cfg.num + 1` and no shard is `EXPORTING` or `IMPORTING`; in every
other case the command leaves shard statuses, `latest_cfg`, the KV map and
the duplicate table (the whole state) unchanged. -/
theorem applyConfig_ignored_unless_sequential_quiescent (query : Nat → Config)
    (cmd : Op) (st : ShardKVState) (hm : cmd.Method = "ApplyConfig")
    (h : ¬ (st.LatestCfg.Num + 1 = cmd.BroadcastCfgVersion ∧
            shardTransferInProgress st = false)) :
    applyCommand query cmd st = st := by
  have hgate : st.LatestCfg.Num + 1 ≠ cmd.BroadcastCfgVersion ∨
      shardTransferInProgress st = true := by
    by_cases he : st.LatestCfg.Num + 1 = cmd.BroadcastCfgVersion
    · cases hb : shardTransferInProgress st with
      | false => exact absurd ⟨he, hb⟩ h
      | true => exact Or.inr rfl
    · exact Or.inl he
  have hred : applyCommand query cmd st =
      applyConfigOperation query cmd.BroadcastCfgVersion st := by
    simp [applyCommand, hm]
  rw [hred]
  unfold applyConfigOperation
  rw [if_pos]
  simpa using hgate

/-- Witness for C7: `ApplyConfig{5}` on a replica at configuration 1 (the
next config in sequence would be 2) is discarded. -/
theorem applyConfig_ignored_unless_sequential_quiescent_witness :
    ({ Method := "ApplyConfig", BroadcastCfgVersion := 5 } : Op).Method = "ApplyConfig" ∧
    ¬ (baseShardKV.LatestCfg.Num + 1 =
        ({ Method := "ApplyConfig", BroadcastCfgVersion := 5 } : Op).BroadcastCfgVersion ∧
       shardTransferInProgress baseShardKV = false) ∧
    applyCommand noQuery { Method := "ApplyConfig", BroadcastCfgVersion := 5 } baseShardKV =
      baseShardKV :=
  ⟨rfl, by decide,
   applyConfig_ignored_unless_sequential_quiescent noQuery
     { Method := "ApplyConfig", BroadcastCfgVersion := 5 } baseShardKV rfl (by decide)⟩

/-- Claim C9.  `Start` on a non-leader returns `(-1, -1, false)` and leaves
the state (log included) unchanged; on the leader it appends exactly one
entry carrying the command and the current term, at the previous last log
index plus one — `max 1 (lastSnapshotIndex + 1)` when the log is empty — and
returns that index together with the current term. -/
theorem start_spec (rf : RaftState) (command : Nat) :
    (rf.state ≠ Leader → startStep rf command = (rf, (-1, -1, false))) ∧
    (rf.state = Leader →
      (startStep rf command).1 =
        { rf with log := rf.log ++
            [{ Cmd := command, Term := rf.term,
               Index := if rf.log = [] then max 1 (rf.lastSnapshotIndex + 1)
                        else getLastLogIndex rf + 1 }] } ∧
      (startStep rf command).2 =
        (if rf.log = [] then max 1 (rf.lastSnapshotIndex + 1)
         else getLastLogIndex rf + 1, rf.term, true)) := by
  constructor
  · intro h
    simp [startStep, h]
  · intro h
    have hidx :
        (match rf.log.getLast? with
         | some entry => entry.Index + 1
         | none => max 1 (rf.lastSnapshotIndex + 1)) =
        if rf.log = [] then max 1 (rf.lastSnapshotIndex + 1)
        else getLastLogIndex rf + 1 := by
      cases hl : rf.log.getLast? with
      | none =>
        rw [List.getLast?_eq_none_iff] at hl
        simp [hl]
      | some entry =>
        have hne : rf.log ≠ [] := by
          intro hc; rw [hc] at hl; simp [List.getLast?] at hl
        simp [hne, getLastLogIndex, hl]
    constructor
    · simp only [startStep, h]
      rw [if_neg (by simp)]
      simp only [hidx]
    · simp only [startStep, h]
      rw [if_neg (by simp)]
      simp only [hidx]

/-- A three-peer leader at term 2 with log entries at indexes 1 and 2 (terms
1 and 2) and both followers' `matchIndex` at 2. -/
def threePeersRaft : RaftState :=
  { leaderID := 0, term := 2, votedFor := -1, lastHeartBeat := 0, state := Leader,
    commitIndex := 0, lastApplied := 0,
    log := [{ Cmd := 0, Term := 1, Index := 1 }, { Cmd := 0, Term := 2, Index := 2 }],
    nextIndex := [0, 3, 3], matchIndex := [0, 2, 2], isDecommissioned := false,
    lastSnapshotIndex := 0, lastSnapshotTerm := 0, npeers := 3, me := 0 }

/-- Witness for C9 at `threePeersRaft` (leader, non-empty log: the new entry
lands at index 3) and at its follower variant. -/
theorem start_spec_witness :
    threePeersRaft.state = Leader ∧
    (startStep threePeersRaft 42).2 = (3, 2, true) ∧
    ({ threePeersRaft with state := Follower } : RaftState).state ≠ Leader ∧
    startStep { threePeersRaft with state := Follower } 42 =
      ({ threePeersRaft with state := Follower }, (-1, -1, false)) := by
  refine ⟨rfl, ?_, by decide, ?_⟩
  · have h := ((start_spec threePeersRaft 42).2 rfl).2
    rw [h]; decide
  · exact (start_spec { threePeersRaft with state := Follower } 42).1 (by decide)

/-- Splitting lemma for the backwards commit scan: a successful scan isolates
the first (highest) entry whose count clears the majority threshold; every
entry above it failed the test. -/
theorem commitScan_eq_some (rf : RaftState) :
    ∀ (L : List Log) (n : Int), commitScan rf L = some n →
    ∃ L1 v L2, L = L1 ++ v :: L2 ∧ v.Index = n ∧
      rf.npeers / 2 < commitCount rf v ∧
      ∀ w ∈ L1, commitCount rf w ≤ rf.npeers / 2 := by
  intro L
  induction L with
  | nil => intro n h; simp [commitScan] at h
  | cons v rest ih =>
    intro n h
    by_cases hc : commitCount rf v > rf.npeers / 2
    · refine ⟨[], v, rest, by simp, ?_, hc, by simp⟩
      simp only [commitScan, if_pos hc] at h
      exact Option.some.inj h
    · simp only [commitScan, if_neg hc] at h
      obtain ⟨L1, w, L2, hsplit, hidx, hcnt, hall⟩ := ih n h
      refine ⟨v :: L1, w, L2, by simp [hsplit], hidx, hcnt, ?_⟩
      intro x hx
      rcases List.mem_cons.mp hx with rfl | hx'
      · exact Nat.le_of_not_lt hc
      · exact hall x hx'

/-- Claim C5, amended (clusters of at least two peers).  When the leader's
commit scan advances `commit_index` to `n`, then `n` exceeds the old commit
index, the log holds an entry at index `n` whose term is the current term and
for which a strict majority (the leader plus the peers whose `match_index` is
at least `n`) agrees, and `n` is the highest index of any current-term entry
enjoying such a majority — in particular no entry of a different term is
committed by counting replicas. -/
theorem commit_advance_majority_current_term (rf : RaftState) (n : Int)
    (hpeers : 2 ≤ rf.npeers)
    (hsorted : rf.log.Pairwise (fun a b => a.Index < b.Index))
    (hscan : commitScan rf rf.log.reverse = some n) :
    (updateCommitIndexStep rf).commitIndex = n ∧
    rf.commitIndex < n ∧
    (∃ e ∈ rf.log, e.Index = n ∧ e.Term = rf.term ∧
      rf.npeers / 2 < majorityCount rf n) ∧
    (∀ e ∈ rf.log, e.Term = rf.term → rf.npeers / 2 < majorityCount rf e.Index →
      e.Index ≤ n) := by
  obtain ⟨L1, v, L2, hsplit, hidx, hcnt, hall⟩ := commitScan_eq_some rf _ n hscan
  have hlog : rf.log = L2.reverse ++ v :: L1.reverse := by
    calc rf.log = rf.log.reverse.reverse := (List.reverse_reverse _).symm
      _ = (L1 ++ v :: L2).reverse := by rw [hsplit]
      _ = L2.reverse ++ v :: L1.reverse := by simp
  have half1 : 1 ≤ rf.npeers / 2 := by omega
  have hgate : v.Term = rf.term ∧ rf.commitIndex < v.Index := by
    by_contra hng
    have hone : commitCount rf v = 1 := by
      unfold commitCount
      rw [if_neg]
      intro hcon
      exact hng ⟨hcon.1, hcon.2⟩
    omega
  have hmaj : rf.npeers / 2 < majorityCount rf v.Index := by
    have heq : commitCount rf v = majorityCount rf v.Index := by
      unfold commitCount
      rw [if_pos ⟨hgate.1, hgate.2⟩]
    omega
  have hvmem : v ∈ rf.log := by rw [hlog]; simp
  have hupd : (updateCommitIndexStep rf).commitIndex = n := by
    unfold updateCommitIndexStep
    rw [hscan]
  refine ⟨hupd, hidx ▸ hgate.2, ⟨v, hvmem, hidx, hgate.1, hidx ▸ hmaj⟩, ?_⟩
  intro e he hterm hmaje
  rw [hlog] at he hsorted
  have hparts := List.pairwise_append.mp hsorted
  rcases List.mem_append.mp he with heL2 | heRest
  · have hlt : e.Index < v.Index := hparts.2.2 e heL2 v (List.mem_cons_self v _)
    omega
  · rcases List.mem_cons.mp heRest with rfl | heL1
    · exact le_of_eq hidx
    · have hvlt : v.Index < e.Index := (List.pairwise_cons.mp hparts.2.1).1 e heL1
      have hin1 : e ∈ L1 := List.mem_reverse.mp heL1
      have hle := hall e hin1
      have heq : commitCount rf e = majorityCount rf e.Index := by
        unfold commitCount
        rw [if_pos ⟨hterm, by omega⟩]
      omega

/-- Witness for the amended C5 theorem at `threePeersRaft`: the scan commits
index 2 (term 2, both followers' `matchIndex` at 2). -/
theorem commit_advance_majority_current_term_witness :
    2 ≤ threePeersRaft.npeers ∧
    threePeersRaft.log.Pairwise (fun a b => a.Index < b.Index) ∧
    commitScan threePeersRaft threePeersRaft.log.reverse = some 2 ∧
    (updateCommitIndexStep threePeersRaft).commitIndex = 2 ∧
    threePeersRaft.commitIndex < 2 :=
  ⟨by decide, by decide, by decide,
   (commit_advance_majority_current_term threePeersRaft 2 (by decide) (by decide)
      (by decide)).1,
   (commit_advance_majority_current_term threePeersRaft 2 (by decide) (by decide)
      (by decide)).2.1⟩

/-- A single-replica cluster: leader of term 2 whose only log entry carries
term 1.  `updateCommitIndex` is reached with `count = 1 > len(peers)/2 = 0`
without ever testing the entry's term. -/
def singlePeerRaft : RaftState :=
  { leaderID := 0, term := 2, votedFor := -1, lastHeartBeat := 0, state := Leader,
    commitIndex := 0, lastApplied := 0,
    log := [{ Cmd := 0, Term := 1, Index := 1 }],
    nextIndex := [0], matchIndex := [0], isDecommissioned := false,
    lastSnapshotIndex := 0, lastSnapshotTerm := 0, npeers := 1, me := 0 }

/-- Claim C5, counterexample.  In a cluster of one peer the scan commits the
last log entry although its term (1) differs from the current term (2): the
majority test `count > len(peers)/2` passes with the initial `count = 1`
before the current-term guard is ever consulted, so "for every cluster size,
an entry whose term differs from the current term is never committed by
counting replicas" fails. -/
theorem single_peer_commits_old_term_entry :
    singlePeerRaft.term = 2 ∧
    (∀ e ∈ singlePeerRaft.log, e.Term ≠ singlePeerRaft.term) ∧
    singlePeerRaft.commitIndex = 0 ∧
    (updateCommitIndexStep singlePeerRaft).commitIndex = 1 ∧
    (∃ e ∈ singlePeerRaft.log, e.Index = 1 ∧ e.Term ≠ singlePeerRaft.term) := by
  decide

/-- The boolean up-to-date check, in the spec's phrasing: candidate's last
log term strictly greater, or equal with candidate last index no smaller. -/
theorem checkIfLogUpdateToDate_iff (rf : RaftState) (i t : Int) :
    checkIfLogUpdateToDate rf i t = true ↔
      ((getLastLogEntry rf).2 < t ∨
       ((getLastLogEntry rf).2 = t ∧ (getLastLogEntry rf).1 ≤ i)) := by
  unfold checkIfLogUpdateToDate
  by_cases h : (getLastLogEntry rf).2 = t
  · simp [h]
  · simp [h]

/-- Characterization of the `RequestVote` handler: when the vote is granted,
which state fields a grant and a strictly greater term update. -/
theorem requestVoteStep_char (rf : RaftState) (args : RequestVoteArgs) (now : Nat) :
    ((requestVoteStep rf args now).2.VoteGranted = true ↔
      (rf.term ≤ args.Term ∧
       (rf.term < args.Term ∨ rf.votedFor = -1 ∨ args.CandidateId = rf.votedFor) ∧
       checkIfLogUpdateToDate rf args.LastLogIndex args.LastLogTerm = true)) ∧
    ((requestVoteStep rf args now).2.VoteGranted = true →
      (requestVoteStep rf args now).1.votedFor = args.CandidateId ∧
      (requestVoteStep rf args now).1.lastHeartBeat = now) ∧
    (rf.term < args.Term →
      (requestVoteStep rf args now).1.term = args.Term ∧
      (requestVoteStep rf args now).1.state = Follower) := by
  by_cases hgt : args.Term > rf.term
  · by_cases hu : checkIfLogUpdateToDate rf args.LastLogIndex args.LastLogTerm = true
    · simp [requestVoteStep, hgt, hu, le_of_lt hgt]
    · simp [requestVoteStep, hgt, hu]
  · have hng : ¬ rf.term < args.Term := hgt
    by_cases hlt : args.Term < rf.term
    · have : ¬ rf.term ≤ args.Term := not_le.mpr hlt
      simp [requestVoteStep, hgt, hlt, this]
    · have hle : rf.term ≤ args.Term := not_lt.mp hlt
      by_cases hu : checkIfLogUpdateToDate rf args.LastLogIndex args.LastLogTerm = true
      · by_cases hv : rf.votedFor = -1 ∨ args.CandidateId = rf.votedFor
        · simp [requestVoteStep, hgt, hlt, hu, hv, hle, hng]
        · simp [requestVoteStep, hgt, hlt, hu, hv, hng]
      · simp [requestVoteStep, hgt, hlt, hu, hng]

/-- Claim C6.  The receiver grants its vote iff (i) `args.Term` is at least
the current term (a strictly greater term steps the receiver down to
Follower and adopts the term, clearing `votedFor` — covered by the first
disjunct of (ii)), (ii) `votedFor` is unset or already the candidate, and
(iii) the candidate's last log term is strictly greater than the local one,
or equal with candidate last index no smaller; and a granted vote records the
candidate and resets the election timer (`lastHeartBeat := now`). -/
theorem requestVote_grant_characterization (rf : RaftState) (args : RequestVoteArgs)
    (now : Nat) :
    ((requestVoteStep rf args now).2.VoteGranted = true ↔
      (rf.term ≤ args.Term ∧
       (rf.term < args.Term ∨ rf.votedFor = -1 ∨ args.CandidateId = rf.votedFor) ∧
       ((getLastLogEntry rf).2 < args.LastLogTerm ∨
        ((getLastLogEntry rf).2 = args.LastLogTerm ∧
         (getLastLogEntry rf).1 ≤ args.LastLogIndex)))) ∧
    ((requestVoteStep rf args now).2.VoteGranted = true →
      (requestVoteStep rf args now).1.votedFor = args.CandidateId ∧
      (requestVoteStep rf args now).1.lastHeartBeat = now) ∧
    (rf.term < args.Term →
      (requestVoteStep rf args now).1.term = args.Term ∧
      (requestVoteStep rf args now).1.state = Follower) := by
  have h := requestVoteStep_char rf args now
  refine ⟨?_, h.2.1, h.2.2⟩
  rw [h.1, checkIfLogUpdateToDate_iff]

def rvCand : RequestVoteArgs :=
  { Term := 3, CandidateId := 2, LastLogIndex := 2, LastLogTerm := 2 }

/-- Witness for C6: candidate 2 with a fresh term 3 and an up-to-date log is
granted the vote by `threePeersRaft`; the vote is recorded and the timer
reset to `now = 5`. -/
theorem requestVote_grant_characterization_witness :
    (requestVoteStep threePeersRaft rvCand 5).2.VoteGranted = true ∧
    (requestVoteStep threePeersRaft rvCand 5).1.votedFor = rvCand.CandidateId ∧
    (requestVoteStep threePeersRaft rvCand 5).1.lastHeartBeat = 5 := by
  have h := requestVote_grant_characterization threePeersRaft rvCand 5
  have hg : (requestVoteStep threePeersRaft rvCand 5).2.VoteGranted = true :=
    h.1.mpr (by decide)
  exact ⟨hg, (h.2.1 hg).1, (h.2.1 hg).2⟩

/-- An `AppendEntries` whose term is at least the receiver's adopts the term
and pins `votedFor` to the sender. -/
theorem appendEntriesStep_adopt (rf : RaftState) (args : AppendEntriesArgs)
    (now : Nat) (h : rf.term ≤ args.Term) :
    (appendEntriesStep rf args now).1.votedFor = args.LeaderId ∧
    (appendEntriesStep rf args now).1.term = args.Term := by
  simp only [appendEntriesStep]
  rw [if_neg (not_lt.mpr h)]
  split
  · exact ⟨rfl, rfl⟩
  · split
    · exact ⟨rfl, rfl⟩
    · exact ⟨rfl, rfl⟩

/-- Same for `InstallSnapshot` on a live replica. -/
theorem installSnapshotStep_adopt (rf : RaftState) (args : InstallSnapshotArgs)
    (now : Nat) (hd : rf.isDecommissioned = false) (h : rf.term ≤ args.Term) :
    (installSnapshotStep rf args now).1.votedFor = args.LeaderId ∧
    (installSnapshotStep rf args now).1.term = args.Term := by
  simp only [installSnapshotStep, hd]
  rw [if_neg (Bool.false_ne_true), if_neg (not_lt.mpr h)]
  split
  · split
    · exact ⟨rfl, rfl⟩
    · exact ⟨rfl, rfl⟩
  · exact ⟨rfl, rfl⟩

/-- Claim C10.  Any `AppendEntries` or `InstallSnapshot` whose term is at
least the receiver's current term sets `votedFor` to the sender's leader id
(not merely to unset) and adopts the term; consequently, a replica that has
acknowledged a leader in some term cannot grant a `RequestVote` to a
different candidate in that same term. -/
theorem leader_ack_fixes_votedFor_no_revote :
    (∀ (rf : RaftState) (args : AppendEntriesArgs) (now : Nat),
      rf.term ≤ args.Term →
      (appendEntriesStep rf args now).1.votedFor = args.LeaderId ∧
      (appendEntriesStep rf args now).1.term = args.Term) ∧
    (∀ (rf : RaftState) (args : InstallSnapshotArgs) (now : Nat),
      rf.isDecommissioned = false → rf.term ≤ args.Term →
      (installSnapshotStep rf args now).1.votedFor = args.LeaderId ∧
      (installSnapshotStep rf args now).1.term = args.Term) ∧
    (∀ (rf : RaftState) (args : AppendEntriesArgs) (now : Nat)
       (rv : RequestVoteArgs) (now2 : Nat),
      rf.term ≤ args.Term → args.LeaderId ≠ -1 →
      rv.Term = args.Term → rv.CandidateId ≠ args.LeaderId →
      (requestVoteStep (appendEntriesStep rf args now).1 rv now2).2.VoteGranted = false) := by
  refine ⟨fun rf args now h => appendEntriesStep_adopt rf args now h,
          fun rf args now hd h => installSnapshotStep_adopt rf args now hd h, ?_⟩
  intro rf args now rv now2 h hleader hterm hcand
  obtain ⟨hvf, ht⟩ := appendEntriesStep_adopt rf args now h
  have hchar := (requestVoteStep_char (appendEntriesStep rf args now).1 rv now2).1
  cases hx : (requestVoteStep (appendEntriesStep rf args now).1 rv now2).2.VoteGranted with
  | false => rfl
  | true =>
    obtain ⟨h1, h2, h3⟩ := hchar.mp hx
    rcases h2 with h2a | h2b | h2c
    · rw [ht, hterm] at h2a
      exact absurd h2a (lt_irrefl _)
    · rw [hvf] at h2b
      exact absurd h2b hleader
    · rw [hvf] at h2c
      exact absurd h2c hcand

def heartbeatArgs : AppendEntriesArgs :=
  { Term := 2, LeaderId := 1, PreLogIndex := 2, PreLogTerm := 2,
    Entries := [], LeaderCommit := 0 }

/-- Witness for C10: after a term-2 heartbeat from leader 1, `votedFor` is 1,
and candidate 0's term-2 `RequestVote` (even with a longer log) is denied. -/
theorem leader_ack_fixes_votedFor_no_revote_witness :
    threePeersRaft.term ≤ heartbeatArgs.Term ∧
    (appendEntriesStep threePeersRaft heartbeatArgs 9).1.votedFor = heartbeatArgs.LeaderId ∧
    (requestVoteStep (appendEntriesStep threePeersRaft heartbeatArgs 9).1
      { Term := 2, CandidateId := 0, LastLogIndex := 9, LastLogTerm := 9 }
      10).2.VoteGranted = false :=
  ⟨by decide,
   (leader_ack_fixes_votedFor_no_revote.1 threePeersRaft heartbeatArgs 9 (by decide)).1,
   leader_ack_fixes_votedFor_no_revote.2.2 threePeersRaft heartbeatArgs 9
     { Term := 2, CandidateId := 0, LastLogIndex := 9, LastLogTerm := 9 } 10
     (by decide) (by decide) (by decide) (by decide)⟩

end KVStore
